import Mathlib

/-!
Shallow embedding of the two XDF-editing scripts of this repository:
`n54-excel-validation-modifier.py` (spreadsheet-driven editor) and
`xdf-freedom.py` (interactive category/title renamer).

The XML documents handled by `xml.etree.ElementTree` are modelled by the
inductive `Elem` (tag, attribute list, optional text, ordered children).
Spreadsheet cell values, which `openpyxl` delivers untyped, are modelled by
`CellValue` (absent, string, or number; numbers as exact rationals).
In-place mutation of the Python tree is rendered as pure tree rebuilding,
and the run-aborting exceptions of the Python code (formatting a
non-numeric value with `:.2f`, calling `.strip()` on a non-string) are
rendered as `Except.error`.
-/

namespace XdfFun

/-- An XML element as the scripts see it through `xml.etree.ElementTree`:
a tag, an ordered attribute list, optional text, and ordered children. -/
inductive Elem : Type where
  | node (tag : String) (attrs : List (String × String)) (text : Option String)
      (children : List Elem)

/-- The tag of an element. -/
def Elem.tag : Elem → String
  | .node t _ _ _ => t

/-- The attribute list of an element. -/
def Elem.attrs : Elem → List (String × String)
  | .node _ a _ _ => a

/-- The text of an element (`None` in Python is `Option.none`). -/
def Elem.text : Elem → Option String
  | .node _ _ x _ => x

/-- The ordered children of an element. -/
def Elem.children : Elem → List Elem
  | .node _ _ _ c => c

/-- First-match lookup in an association list; models both Python
dictionary membership plus indexing (for maps with distinct keys) and
XML attribute lookup. -/
def lookupKey (l : List (String × String)) (k : String) : Option String :=
  match l with
  | [] => Option.none
  | (a, b) :: rest => if a = k then some b else lookupKey rest k

/-- `elem.get(k)`: attribute lookup returning `None` when absent. -/
def Elem.getAttr (e : Elem) (k : String) : Option String :=
  lookupKey e.attrs k

/-- Replace the value stored under key `k`, or append the pair when the
key is absent; models `elem.set(k, v)` on the attribute dictionary. -/
def setAttrList (l : List (String × String)) (k v : String) : List (String × String) :=
  match l with
  | [] => [(k, v)]
  | (a, b) :: rest => if a = k then (k, v) :: rest else (a, b) :: setAttrList rest k v

/-- `elem.set(k, v)`. -/
def Elem.setAttr (e : Elem) (k v : String) : Elem :=
  match e with
  | .node t a x c => .node t (setAttrList a k v) x c

/-- `elem.text = s`. -/
def Elem.setText (e : Elem) (s : String) : Elem :=
  match e with
  | .node t a _ c => .node t a (some s) c

/-- Replace the children list wholesale; used to express in-place child
mutation as tree rebuilding. -/
def Elem.withChildren (e : Elem) (c : List Elem) : Elem :=
  match e with
  | .node t a tx _ => .node t a tx c

/-- The whitespace characters Python's `str.strip()` removes on the
scripts' ASCII data. -/
def isPySpace (c : Char) : Bool :=
  c = ' ' || c = '\t' || c = '\n' || c = '\r' || c = '\x0b' || c = '\x0c'

/-- Strip leading and trailing whitespace from a character list. -/
def trimChars (cs : List Char) : List Char :=
  ((cs.dropWhile isPySpace).reverse.dropWhile isPySpace).reverse

/-- `s.strip()`. -/
def trimStr (s : String) : String :=
  String.mk (trimChars s.data)

/-- Uppercase one character; Python's `str.upper()` agrees on the ASCII
data the scripts handle. -/
def upperChar (c : Char) : Char :=
  if 'a' ≤ c && c ≤ 'z' then Char.ofNat (c.toNat - 32) else c

/-- `s.upper()`. -/
def upperStr (s : String) : String :=
  String.mk (s.data.map upperChar)

/-- Does the pattern occur at the head of the list? -/
def subAt : List Char → List Char → Bool
  | _, [] => true
  | [], _ :: _ => false
  | c :: cs, p :: ps => c = p && subAt cs ps

/-- Does the pattern occur anywhere in the list? -/
def hasSubList (pat : List Char) : List Char → Bool
  | [] => pat.isEmpty
  | c :: cs => subAt (c :: cs) pat || hasSubList pat cs

/-- Python's substring test `pat in s`. -/
def containsSubstr (s pat : String) : Bool :=
  hasSubList pat.data s.data

/-- Does this element carry the given tag? -/
def tagIs (tg : String) (c : Elem) : Bool :=
  c.tag == tg

/-- `elem.find(tg)` with a plain tag: the first direct child with that tag. -/
def Elem.find (e : Elem) (tg : String) : Option Elem :=
  e.children.find? (tagIs tg)

/-- `elem.findall(tg)` with a plain tag: all direct children with that tag,
in document order. -/
def Elem.findall (e : Elem) (tg : String) : List Elem :=
  e.children.filter (tagIs tg)

/-- Rewrite the first element of the list satisfying `p` with `f`, leaving
everything else alone; this is how in-place mutation of the element that a
`find` returned is rendered on the parent's child list. -/
def mapFirst {α : Type} (p : α → Bool) (f : α → α) : List α → List α
  | [] => []
  | x :: xs => if p x then f x :: xs else x :: mapFirst p f xs

/-- The predicate behind `table.find("XDFAXIS[@id='z']")`: tag `XDFAXIS`
with attribute `id` equal to `"z"`. -/
def isZAxis (c : Elem) : Bool :=
  c.tag == "XDFAXIS" && c.getAttr "id" == some "z"

/-- A spreadsheet cell as `openpyxl` delivers it to the script: empty
(`None`), a string, or a number (modelled as an exact rational). -/
inductive CellValue : Type where
  | none
  | str (s : String)
  | num (q : ℚ)
deriving DecidableEq

/-- Python truthiness of a cell value: `None`, the empty string and the
number `0` are falsy. -/
def cellTruthy : CellValue → Bool
  | .none => false
  | .str s => !(s == "")
  | .num q => if q = 0 then false else true

/-- The string stored when a (truthy) cell value is assigned to an
element's text. ElementTree stores the raw Python object; only the string
case round-trips through serialization, and it is the only case the
scripts' data exercises. -/
def cellStr : CellValue → String
  | .none => ""
  | .str s => s
  | .num q => toString q

/-- One spreadsheet row as `load_spreadsheet_data` packages it: columns
A-D of the sheet, untyped. -/
structure EditRecord : Type where
  param_name : CellValue
  xdf_address : CellValue
  new_max : CellValue
  new_title : CellValue

/-- One console line printed by `update_xdf_with_spreadsheet`. -/
inductive LogEntry : Type where
  | renamedTitle (old : Option String) (new : String) (addr : String)
  | updatedMax (old : Option ℚ) (new : CellValue) (addr : String)
  | warning (addr : String) (param : CellValue)
deriving DecidableEq

/-- Digits to a natural number, most significant first. -/
def digitsToNat (cs : List Char) : Nat :=
  cs.foldl (fun n c => n * 10 + (c.toNat - 48)) 0

/-- The decimal forms accepted by Python's `float` constructor, restricted
to the plain `[sign] digits [. digits]` shapes (exponent, infinity and nan
spellings are beyond what the scripts' data uses): surrounding whitespace
is ignored, and at least one digit must be present. -/
def parseFloat (s : String) : Option ℚ :=
  let cs := trimChars s.data
  let sgncs : ℚ × List Char :=
    match cs with
    | '-' :: rest => (-1, rest)
    | '+' :: rest => (1, rest)
    | _ => (1, cs)
  let intPart := sgncs.2.takeWhile Char.isDigit
  let rest := sgncs.2.dropWhile Char.isDigit
  match rest with
  | [] => if intPart.isEmpty then Option.none else some (sgncs.1 * (digitsToNat intPart : ℚ))
  | '.' :: frac =>
      if frac.all Char.isDigit && !(intPart.isEmpty && frac.isEmpty) then
        some (sgncs.1 * ((digitsToNat intPart : ℚ) + (digitsToNat frac : ℚ) / (10 ^ frac.length)))
      else Option.none
  | _ => Option.none

/-- `try: old = float(text) except: old = None` on an element's text:
absent text (`float(None)` raises) and unparsable text both give `none`. -/
def tryParse (t : Option String) : Option ℚ :=
  match t with
  | Option.none => Option.none
  | some s => parseFloat s

/-- Round `q * 100` half-to-even to an integer, the rounding Python's
fixed-point formatting applies (for values the binary floats represent
exactly enough, which covers the scripts' data); computed on the reduced
numerator and denominator so that the kernel can evaluate it. -/
def rnd2 (q : ℚ) : ℤ :=
  let n : ℤ := q.num * 100
  let d : ℤ := (q.den : ℤ)
  let fl : ℤ := Int.fdiv n d
  let r : ℤ := n - fl * d
  if 2 * r < d then fl
  else if d < 2 * r then fl + 1
  else if fl % 2 = 0 then fl else fl + 1

/-- Left-pad the cents to two digits. -/
def pad2 (n : Nat) : String :=
  if n < 10 then "0" ++ toString n else toString n

/-- `f"{q:.2f}"` for a numeric value. -/
def formatTwoDec (q : ℚ) : String :=
  let n := rnd2 q
  (if n < 0 then "-" else "") ++ toString (n.natAbs / 100) ++ "." ++ pad2 (n.natAbs % 100)

/-- `f"{v:.2f}"` on an arbitrary cell value: numbers format, a string
raises `ValueError` and an absent value raises `TypeError`, both of which
abort the run. -/
def formatCell2 : CellValue → Except String String
  | .num q => .ok (formatTwoDec q)
  | .str _ => .error "ValueError: Unknown format code f for object of type str"
  | .none => .error "TypeError: unsupported format string passed to NoneType.__format__"

/-- The address under which the index stores a table: follow
`XDFAXIS[@id='z']`, then `EMBEDDEDDATA`, then the `mmedaddress` attribute;
a truthy attribute is uppercased (the index side does NOT trim). -/
def zAddr (t : Elem) : Option String :=
  match t.children.find? isZAxis with
  | Option.none => Option.none
  | some z =>
      match z.find "EMBEDDEDDATA" with
      | Option.none => Option.none
      | some embed =>
          match embed.getAttr "mmedaddress" with
          | Option.none => Option.none
          | some a => if a = "" then Option.none else some (upperStr a)

/-- `tables_by_addr` rendered positionally: the pairs (normalized address,
index of the owning table in the `findall` list), in document order.
Because a Python dictionary keeps the last write for a duplicate key,
lookups read the LAST matching pair. -/
def buildIndex (tables : List Elem) : List (String × Nat) :=
  tables.enum.filterMap (fun p => (zAddr p.2).map (fun a => (a, p.1)))

/-- Dictionary lookup over `buildIndex`: last write wins. -/
def lookupLast (l : List (String × Nat)) (k : String) : Option Nat :=
  ((l.filter (fun p => p.1 == k)).getLast?).map (fun p => p.2)

/-- Example A of the editor: when the record's `new_title` is truthy and
the table has a `title` child, overwrite that child's text and log the
rename; otherwise leave the table alone. -/
def applyTitle (rec : EditRecord) (addr : String) (t : Elem) : Elem × List LogEntry :=
  if cellTruthy rec.new_title then
    match t.find "title" with
    | some te =>
        (t.withChildren (mapFirst (tagIs "title")
            (fun c => c.setText (cellStr rec.new_title)) t.children),
         [LogEntry.renamedTitle te.text (cellStr rec.new_title) addr])
    | Option.none => (t, [])
  else (t, [])

/-- `max_elem.text = formatted` seen from the owning z-axis: overwrite the
text of the axis's first `max` child. -/
def writeMax (sNew : String) (za : Elem) : Elem :=
  za.withChildren (mapFirst (tagIs "max") (fun c => c.setText sNew) za.children)

/-- Example B of the editor: when the record's `new_max` is not `None`,
follow the z-axis to its `max` child; parse the old text only for the log
(failure tolerated), then overwrite the text with the value formatted to
two decimals — which aborts the run when the value is not numeric. -/
def applyMax (rec : EditRecord) (addr : String) (t : Elem) : Except String (Elem × List LogEntry) :=
  match rec.new_max with
  | CellValue.none => .ok (t, [])
  | v =>
      match t.children.find? isZAxis with
      | Option.none => .ok (t, [])
      | some z =>
          match z.find "max" with
          | Option.none => .ok (t, [])
          | some me =>
              let old := tryParse me.text
              match formatCell2 v with
              | .error e => .error e
              | .ok s =>
                  .ok (t.withChildren (mapFirst isZAxis (writeMax s) t.children),
                       [LogEntry.updatedMax old v addr])

/-- Process one spreadsheet row against the prebuilt index: a falsy
address is skipped silently; a truthy non-string address raises
`AttributeError` at `.strip()`; a truthy string is trimmed and uppercased,
then either resolves (title and max mutations are applied to the indexed
table) or produces exactly one warning. -/
def processRecord (index : List (String × Nat)) (tables : List Elem) (rec : EditRecord) :
    Except String (List Elem × List LogEntry) :=
  match rec.xdf_address with
  | CellValue.none => .ok (tables, [])
  | CellValue.num q =>
      if q = 0 then .ok (tables, [])
      else .error "AttributeError: float object has no attribute strip"
  | CellValue.str s =>
      if s = "" then .ok (tables, [])
      else
        let key := upperStr (trimStr s)
        match lookupLast index key with
        | Option.none => .ok (tables, [LogEntry.warning key rec.param_name])
        | some i =>
            match tables[i]? with
            | Option.none => .ok (tables, [])
            | some t =>
                let p1 := applyTitle rec key t
                match applyMax rec key p1.1 with
                | .error e => .error e
                | .ok p2 => .ok (tables.set i p2.1, p1.2 ++ p2.2)

/-- Fold `processRecord` over the rows in source order, accumulating the
log; an exception aborts the remainder of the run. -/
def processRecords (index : List (String × Nat)) (tables : List Elem) :
    List EditRecord → Except String (List Elem × List LogEntry)
  | [] => .ok (tables, [])
  | r :: rs =>
      match processRecord index tables r with
      | .error e => .error e
      | .ok p =>
          match processRecords index p.1 rs with
          | .error e => .error e
          | .ok p2 => .ok (p2.1, p.2 ++ p2.2)

/-- Put the (possibly mutated) tables back in place of the root's
`XDFTABLE` children, positionally. -/
def setTables (children : List Elem) (ts : List Elem) : List Elem :=
  match children with
  | [] => []
  | c :: cs =>
      if tagIs "XDFTABLE" c then
        match ts with
        | [] => c :: cs
        | t :: rest => t :: setTables cs rest
      else c :: setTables cs ts

/-- `update_xdf_with_spreadsheet` without the file I/O: build the address
index over the root's `XDFTABLE` children, process every row, and return
the rewritten tree together with the console log (or the exception that
aborted the run). -/
def update_xdf_with_spreadsheet (root : Elem) (data : List EditRecord) :
    Except String (Elem × List LogEntry) :=
  let tables := root.findall "XDFTABLE"
  let index := buildIndex tables
  match processRecords index tables data with
  | .error e => .error e
  | .ok p => .ok (root.withChildren (setTables root.children p.1), p.2)

/-- One category under the header: `cat.get('name', '')`, and when that
name is a key of the rename map, `cat.set('name', rename_map[name])`. -/
def catStep (rm : List (String × String)) (cat : Elem) : Elem :=
  match lookupKey rm ((cat.getAttr "name").getD "") with
  | some newName => cat.setAttr "name" newName
  | Option.none => cat

/-- The loop over `xdf_header.findall('CATEGORY')`: rewrite each
`CATEGORY` child of the header through `catStep`. -/
def headerStep (rm : List (String × String)) (hd : Elem) : Elem :=
  hd.withChildren (hd.children.map
    (fun c => if tagIs "CATEGORY" c then catStep rm c else c))

/-- The category-rename step of `update_xdf_for_high_performance`: find
the first `XDFHEADER` child and rewrite each of its `CATEGORY` children
through `catStep`; a document without a header is left alone. -/
def renameCategories (rm : List (String × String)) (root : Elem) : Elem :=
  root.withChildren (mapFirst (tagIs "XDFHEADER") (headerStep rm) root.children)

/-- The body of the conditional title rename on one title element: when
its text is truthy and contains `"Ignition"`, prefix the text with
`"RACE HIGH PERF "`. -/
def igniteTitle (te : Elem) : Elem :=
  match te.text with
  | some s =>
      if !(s == "") && containsSubstr s "Ignition" then
        te.setText ("RACE HIGH PERF " ++ s)
      else te
  | Option.none => te

/-- One table in the conditional title rename: the table's first `title`
child goes through `igniteTitle`. -/
def titleStep (t : Elem) : Elem :=
  t.withChildren (mapFirst (tagIs "title") igniteTitle t.children)

/-- The conditional-rename step of `update_xdf_for_high_performance`:
every `XDFTABLE` child of the root goes through `titleStep`. -/
def renameIgnitionTitles (root : Elem) : Elem :=
  root.withChildren (root.children.map
    (fun c => if tagIs "XDFTABLE" c then titleStep c else c))

/-- `update_xdf_for_high_performance` without the file I/O: the category
rename, then the conditional title rename. -/
def update_xdf_for_high_performance (rm : List (String × String)) (root : Elem) : Elem :=
  renameIgnitionTitles (renameCategories rm root)

/-- The text of the `max` child of a table's z-axis, when the whole chain
exists; the projection the bound-mutation claims are stated through. -/
def zMaxText (t : Elem) : Option String :=
  match t.children.find? isZAxis with
  | Option.none => Option.none
  | some z =>
      match z.find "max" with
      | Option.none => Option.none
      | some me => me.text

/-- The z-axis max text of the first table of a document. -/
def firstTableZMax (root : Elem) : Option String :=
  match root.findall "XDFTABLE" with
  | t :: _ => zMaxText t
  | [] => Option.none

/-- The title text of the first table of a document. -/
def firstTableTitleText (root : Elem) : Option String :=
  match root.findall "XDFTABLE" with
  | t :: _ =>
      match t.find "title" with
      | some te => te.text
      | Option.none => Option.none
  | [] => Option.none

/-- The `name` attribute of the first `CATEGORY` child of the first table
of a document (the spec's input format allows category elements inside
tables). -/
def firstTableCategoryName (root : Elem) : Option String :=
  match root.findall "XDFTABLE" with
  | t :: _ =>
      match t.find "CATEGORY" with
      | some c => c.getAttr "name"
      | Option.none => Option.none
  | [] => Option.none

/-- A z-axis fixture: `EMBEDDEDDATA` carrying the given address and a
`max` child carrying the given text. -/
def zAxisWith (addr : String) (mx : Option String) : Elem :=
  .node "XDFAXIS" [("id", "z")] Option.none
    [ .node "EMBEDDEDDATA" [("mmedaddress", addr)] Option.none []
    , .node "max" [] mx [] ]

/-- A table fixture: a `title` child and a z-axis built by `zAxisWith`. -/
def tableWith (addr : String) (mx : Option String) (ttl : Option String) : Elem :=
  .node "XDFTABLE" [] Option.none [ .node "title" [] ttl [], zAxisWith addr mx ]

/-- The z-axis of the spec's worked example. -/
def zExample : Elem := zAxisWith "0x4076A" (some "255.0")

/-- The table of the spec's worked example. -/
def tExample : Elem := tableWith "0x4076A" (some "255.0") (some "Boost Target")

/-- The document of the spec's worked example: one table whose z-axis
embedded-data address is `0x4076A` and whose max text is `255.0`. -/
def docExample : Elem :=
  .node "XDFFORMAT" [] Option.none [ tExample ]

/-- The spec's worked example row: target address `0x4076a` (lowercase),
new bound 300, no new title. -/
def recExample : EditRecord :=
  ⟨.str "Boost Target Table", .str "0x4076a", .num 300, CellValue.none⟩

/-- A row whose new bound is the string `"300"`, as a spreadsheet cell
with no type validation can deliver. -/
def recStringMax : EditRecord :=
  ⟨.str "Boost Target Table", .str "0x4076a", .str "300", CellValue.none⟩

/-- A row whose target-key cell is empty (`""`). -/
def recEmptyAddr : EditRecord :=
  ⟨.str "Boost Target Table", .str "", .num 300, CellValue.none⟩

/-- A row whose target-key cell is missing (`None`). -/
def recMissingAddr : EditRecord :=
  ⟨.str "Boost Target Table", CellValue.none, .num 300, CellValue.none⟩

/-- A document whose single table stores its address with a leading
space: ` 0x4076a`. -/
def docSpacedAddr : Elem :=
  .node "XDFFORMAT" [] Option.none [ tableWith " 0x4076a" (some "255.0") (some "Boost Target") ]

/-- The rename map of the interactive script's first prompt. -/
def rmBoost : List (String × String) :=
  [("Boost Control", "RACE: Maximum Boost Control")]

/-- A document with a header category named `Boost Control` and a table
that itself contains a `CATEGORY` child of the same name. -/
def docTableCategory : Elem :=
  .node "XDFFORMAT" [] Option.none
    [ .node "XDFHEADER" [] Option.none
        [ .node "CATEGORY" [("name", "Boost Control")] Option.none [] ]
    , .node "XDFTABLE" [] Option.none
        [ .node "CATEGORY" [("name", "Boost Control")] Option.none []
        , .node "title" [] (some "Boost Target") [] ] ]

/-- A title element reading `Ignition Timing Base`. -/
def teIgnition : Elem := .node "title" [] (some "Ignition Timing Base") []

/-- A table titled `Ignition Timing Base`. -/
def tIgnition : Elem := .node "XDFTABLE" [] Option.none [ teIgnition ]

/-- A document with a single table titled `Ignition Timing Base` and no
header. -/
def docIgnition : Elem :=
  .node "XDFFORMAT" [] Option.none [ tIgnition ]

/-- A row targeting an address that no table owns. -/
def recUnknown : EditRecord :=
  ⟨.str "Boost Target Table", .str "0xBEEF", .num 1, CellValue.none⟩

/-- Two tables sharing the normalized address `0X10`; the second one's
max text is not numeric so its logged old value is unknown. -/
def t1Dup : Elem := tableWith "0x10" (some "1") (some "First")

/-- The later table with the duplicated address. -/
def t2Dup : Elem := tableWith "0x10" (some "xx") (some "Second")

/-- A row targeting the duplicated address `0x10` with new bound 5. -/
def recDup : EditRecord := ⟨.str "p", .str "0x10", .num 5, CellValue.none⟩

/-- The header of `docTableCategory`. -/
def hdFix : Elem :=
  .node "XDFHEADER" [] Option.none
    [ .node "CATEGORY" [("name", "Boost Control")] Option.none [] ]

/-- A category named by a key of `rmBoost`. -/
def catBoost : Elem := .node "CATEGORY" [("name", "Boost Control")] Option.none []

/-- A category whose name is not a key of `rmBoost`. -/
def catFuel : Elem := .node "CATEGORY" [("name", "Fuel")] Option.none []

/-- A table whose z-axis max text `xx` does not parse as a float. -/
def tUnparse : Elem := tableWith "0x20" (some "xx") (some "T")

/-- A row with numeric new bound 3 targeting `tUnparse`. -/
def recUnparse : EditRecord := ⟨.str "p", .str "0x20", .num 3, CellValue.none⟩

/-- A table for the presence-check claim. -/
def tZeroMax : Elem := tableWith "0x30" (some "255") (some "Old Title")

/-- A row with new bound 0 (falsy but not `None`) and new title `""`
(falsy). -/
def recZeroEmpty : EditRecord := ⟨.str "p", .str "0x30", .num 0, .str ""⟩

/-! Basic structural lemmas about the element modifiers. -/

theorem tag_withChildren (e : Elem) (c : List Elem) : (e.withChildren c).tag = e.tag := by
  cases e; rfl

theorem attrs_withChildren (e : Elem) (c : List Elem) : (e.withChildren c).attrs = e.attrs := by
  cases e; rfl

theorem children_withChildren (e : Elem) (c : List Elem) : (e.withChildren c).children = c := by
  cases e; rfl

theorem text_withChildren (e : Elem) (c : List Elem) : (e.withChildren c).text = e.text := by
  cases e; rfl

theorem tag_setText (e : Elem) (s : String) : (e.setText s).tag = e.tag := by
  cases e; rfl

theorem attrs_setText (e : Elem) (s : String) : (e.setText s).attrs = e.attrs := by
  cases e; rfl

theorem text_setText (e : Elem) (s : String) : (e.setText s).text = some s := by
  cases e; rfl

theorem children_setText (e : Elem) (s : String) : (e.setText s).children = e.children := by
  cases e; rfl

theorem tag_setAttr (e : Elem) (k v : String) : (e.setAttr k v).tag = e.tag := by
  cases e; rfl

theorem lookupKey_setAttrList (l : List (String × String)) (k v : String) :
    lookupKey (setAttrList l k v) k = some v := by
  induction l with
  | nil => simp [setAttrList, lookupKey]
  | cons p rest ih =>
      by_cases h : p.1 = k
      · simp [setAttrList, lookupKey, h]
      · simp [setAttrList, lookupKey, h, ih]

theorem getAttr_setAttr (e : Elem) (k v : String) : (e.setAttr k v).getAttr k = some v := by
  cases e with
  | node t a tx c => simpa [Elem.setAttr, Elem.getAttr, Elem.attrs] using lookupKey_setAttrList a k v

theorem tagIs_withChildren (tg : String) (e : Elem) (c : List Elem) :
    tagIs tg (e.withChildren c) = tagIs tg e := by
  simp [tagIs, tag_withChildren]

theorem tagIs_setText (tg : String) (e : Elem) (s : String) :
    tagIs tg (e.setText s) = tagIs tg e := by
  simp [tagIs, tag_setText]

theorem getAttr_withChildren (e : Elem) (c : List Elem) (k : String) :
    (e.withChildren c).getAttr k = e.getAttr k := by
  simp [Elem.getAttr, attrs_withChildren]

theorem getAttr_setText (e : Elem) (s : String) (k : String) :
    (e.setText s).getAttr k = e.getAttr k := by
  simp [Elem.getAttr, attrs_setText]

theorem isZAxis_withChildren (e : Elem) (c : List Elem) :
    isZAxis (e.withChildren c) = isZAxis e := by
  simp [isZAxis, tag_withChildren, getAttr_withChildren]

theorem isZAxis_setText (e : Elem) (s : String) : isZAxis (e.setText s) = isZAxis e := by
  simp [isZAxis, tag_setText, getAttr_setText]

theorem tagIs_eq_true_iff (tg : String) (e : Elem) : tagIs tg e = true ↔ e.tag = tg := by
  simp [tagIs]

/-! Lemmas about `mapFirst` and `find?`. -/

theorem find?_mapFirst_same {α : Type} (p : α → Bool) (f : α → α)
    (hf : ∀ a, p (f a) = p a) (l : List α) :
    (mapFirst p f l).find? p = (l.find? p).map f := by
  induction l with
  | nil => simp [mapFirst]
  | cons x xs ih =>
      by_cases hx : p x = true
      · simp [mapFirst, hx, List.find?_cons, hf]
      · have hx2 : p x = false := by simpa using hx
        simp [mapFirst, hx2, List.find?_cons, ih]

theorem find?_mapFirst_disjoint {α : Type} (p r : α → Bool) (f : α → α)
    (h1 : ∀ a, p a = true → r a = false)
    (h2 : ∀ a, p a = true → r (f a) = false) (l : List α) :
    (mapFirst p f l).find? r = l.find? r := by
  induction l with
  | nil => simp [mapFirst]
  | cons x xs ih =>
      by_cases hx : p x = true
      · simp [mapFirst, hx, List.find?_cons, h1 x hx, h2 x hx]
      · have hx2 : p x = false := by simpa using hx
        by_cases hr : r x = true
        · simp [mapFirst, hx2, List.find?_cons, hr]
        · have hr2 : r x = false := by simpa using hr
          simp [mapFirst, hx2, List.find?_cons, hr2, ih]

theorem find?_map_pres {α : Type} (p : α → Bool) (g : α → α)
    (hg : ∀ a, p (g a) = p a) (l : List α) :
    (l.map g).find? p = (l.find? p).map g := by
  induction l with
  | nil => simp
  | cons x xs ih =>
      by_cases hx : p x = true
      · simp [List.find?_cons, hx, hg]
      · have hx2 : p x = false := by simpa using hx
        simp [List.find?_cons, hx2, hg, ih]

theorem mapFirst_idem {α : Type} (p : α → Bool) (f : α → α)
    (hp : ∀ a, p (f a) = p a) (hf : ∀ a, p a = true → f (f a) = f a) (l : List α) :
    mapFirst p f (mapFirst p f l) = mapFirst p f l := by
  induction l with
  | nil => simp [mapFirst]
  | cons x xs ih =>
      by_cases hx : p x = true
      · simp [mapFirst, hx, hp, hf x hx]
      · have hx2 : p x = false := by simpa using hx
        simp [mapFirst, hx2, ih]

theorem lookupKey_eq_some_mem (l : List (String × String)) (k v : String)
    (h : lookupKey l k = some v) : (k, v) ∈ l := by
  induction l with
  | nil => simp [lookupKey] at h
  | cons p rest ih =>
      cases p with
      | mk a b =>
          by_cases hk : a = k
          · simp [lookupKey, hk] at h
            subst hk
            subst h
            exact List.mem_cons_self _ _
          · simp [lookupKey, hk] at h
            exact List.mem_cons_of_mem _ (ih h)

/-! Preservation lemmas for the step functions. -/

theorem withChildren_withChildren (e : Elem) (c d : List Elem) :
    (e.withChildren c).withChildren d = e.withChildren d := by
  cases e; rfl

theorem tag_igniteTitle (a : Elem) : (igniteTitle a).tag = a.tag := by
  unfold igniteTitle
  cases a.text with
  | none => rfl
  | some s =>
      by_cases hc : (!(s == "") && containsSubstr s "Ignition") = true
      · simp [hc, tag_setText]
      · simp [hc]

theorem tag_titleStep (a : Elem) : (titleStep a).tag = a.tag := by
  simp [titleStep, tag_withChildren]

theorem tag_catStep (rm : List (String × String)) (a : Elem) :
    (catStep rm a).tag = a.tag := by
  unfold catStep
  cases lookupKey rm ((a.getAttr "name").getD "") with
  | none => rfl
  | some v => simp [tag_setAttr]

theorem tag_headerStep (rm : List (String × String)) (a : Elem) :
    (headerStep rm a).tag = a.tag := by
  simp [headerStep, tag_withChildren]

theorem tag_writeMax (sNew : String) (a : Elem) : (writeMax sNew a).tag = a.tag := by
  simp [writeMax, tag_withChildren]

theorem attrs_writeMax (sNew : String) (a : Elem) : (writeMax sNew a).attrs = a.attrs := by
  simp [writeMax, attrs_withChildren]

theorem isZAxis_writeMax (sNew : String) (a : Elem) : isZAxis (writeMax sNew a) = isZAxis a := by
  simp [isZAxis, writeMax, tag_withChildren, getAttr_withChildren]

theorem isZAxis_false_of_tagIs (tg : String) (a : Elem) (hne : ¬ tg = "XDFAXIS")
    (h : tagIs tg a = true) : isZAxis a = false := by
  have ht := (tagIs_eq_true_iff tg a).mp h
  simp [isZAxis, ht, hne]

theorem tagIs_false_of_isZAxis (tg : String) (a : Elem) (hne : ¬ "XDFAXIS" = tg)
    (h : isZAxis a = true) : tagIs tg a = false := by
  have ht : a.tag = "XDFAXIS" := by
    have := h
    simp [isZAxis] at this
    exact this.1
  simp [tagIs, ht, hne]

/-! The title mutation does not disturb the z-axis, and the bound
mutation does not disturb the title. -/

theorem applyTitle_find_zaxis (rec : EditRecord) (addr : String) (t : Elem) :
    ((applyTitle rec addr t).1).children.find? isZAxis = t.children.find? isZAxis := by
  unfold applyTitle
  by_cases hnt : cellTruthy rec.new_title = true
  · simp only [hnt, if_true]
    cases hft : t.find "title" with
    | none => simp
    | some te =>
        simp only
        rw [children_withChildren]
        refine find?_mapFirst_disjoint _ _ _ ?_ ?_ t.children
        · intro a ha
          exact isZAxis_false_of_tagIs "title" a (by decide) ha
        · intro a ha
          rw [isZAxis_setText]
          exact isZAxis_false_of_tagIs "title" a (by decide) ha
  · have hnt2 : cellTruthy rec.new_title = false := by simpa using hnt
    simp [hnt2]

theorem find_title_after_zwrite (t : Elem) (sNew : String) :
    (t.withChildren (mapFirst isZAxis (writeMax sNew) t.children)).find "title" =
      t.find "title" := by
  unfold Elem.find
  rw [children_withChildren]
  refine find?_mapFirst_disjoint _ _ _ ?_ ?_ t.children
  · intro a ha
    exact tagIs_false_of_isZAxis "title" a (by decide) ha
  · intro a ha
    have : tagIs "title" (writeMax sNew a) = tagIs "title" a := by
      simp [tagIs, tag_writeMax]
    rw [this]
    exact tagIs_false_of_isZAxis "title" a (by decide) ha

/-! Unfolding lemmas for the bound mutation and record processing. -/

theorem applyMax_num (rec : EditRecord) (addr : String) (t z me : Elem) (q : ℚ)
    (hmax : rec.new_max = CellValue.num q)
    (hz : t.children.find? isZAxis = some z)
    (hme : z.find "max" = some me) :
    applyMax rec addr t = Except.ok
      (t.withChildren (mapFirst isZAxis (writeMax (formatTwoDec q)) t.children),
       [LogEntry.updatedMax (tryParse me.text) (CellValue.num q) addr]) := by
  obtain ⟨pn, ad, nm, nt⟩ := rec
  simp only at hmax
  subst hmax
  simp [applyMax, hz, hme, formatCell2]

theorem applyMax_str (rec : EditRecord) (addr : String) (t z me : Elem) (v : String)
    (hmax : rec.new_max = CellValue.str v)
    (hz : t.children.find? isZAxis = some z)
    (hme : z.find "max" = some me) :
    applyMax rec addr t =
      Except.error "ValueError: Unknown format code f for object of type str" := by
  obtain ⟨pn, ad, nm, nt⟩ := rec
  simp only at hmax
  subst hmax
  simp [applyMax, hz, hme, formatCell2]

theorem zMaxText_after_write (t z me : Elem) (sNew : String)
    (hz : t.children.find? isZAxis = some z)
    (hme : z.find "max" = some me) :
    zMaxText (t.withChildren (mapFirst isZAxis (writeMax sNew) t.children)) = some sNew := by
  unfold zMaxText
  rw [children_withChildren]
  rw [find?_mapFirst_same isZAxis (writeMax sNew) (isZAxis_writeMax sNew) t.children]
  rw [hz]
  simp only [Option.map_some']
  unfold writeMax Elem.find
  rw [children_withChildren]
  rw [find?_mapFirst_same (tagIs "max") (fun c => c.setText sNew)
        (fun a => tagIs_setText "max" a sNew) z.children]
  have hme2 : z.children.find? (tagIs "max") = some me := hme
  rw [hme2]
  simp [text_setText]

theorem processRecord_resolved_ok (index : List (String × Nat)) (tables : List Elem)
    (rec : EditRecord) (s : String) (i : Nat) (t t2 : Elem) (logs2 : List LogEntry)
    (haddr : rec.xdf_address = CellValue.str s) (hs : ¬ s = "")
    (hlook : lookupLast index (upperStr (trimStr s)) = some i)
    (ht : tables[i]? = some t)
    (happ : applyMax rec (upperStr (trimStr s)) (applyTitle rec (upperStr (trimStr s)) t).1 =
        Except.ok (t2, logs2)) :
    processRecord index tables rec =
      Except.ok (tables.set i t2, (applyTitle rec (upperStr (trimStr s)) t).2 ++ logs2) := by
  obtain ⟨pn, ad, nm, nt⟩ := rec
  simp only at haddr
  subst haddr
  simp [processRecord, hs, hlook, ht, happ]

theorem processRecord_resolved_err (index : List (String × Nat)) (tables : List Elem)
    (rec : EditRecord) (s : String) (i : Nat) (t : Elem) (e : String)
    (haddr : rec.xdf_address = CellValue.str s) (hs : ¬ s = "")
    (hlook : lookupLast index (upperStr (trimStr s)) = some i)
    (ht : tables[i]? = some t)
    (happ : applyMax rec (upperStr (trimStr s)) (applyTitle rec (upperStr (trimStr s)) t).1 =
        Except.error e) :
    processRecord index tables rec = Except.error e := by
  obtain ⟨pn, ad, nm, nt⟩ := rec
  simp only at haddr
  subst haddr
  simp [processRecord, hs, hlook, ht, happ]

/-! Concrete claim instances. -/

/-- C3: in a document containing a table whose z-axis embedded-data
address attribute is `0x4076A` (with a max child), an EditRecord with
target address `0x4076a` and new bound 300 leaves that table's z-axis max
element text equal to `"300.00"`: the match succeeds case-insensitively
and the new value is formatted to two decimal places. -/
theorem C3_case_insensitive_two_decimal_update :
    (update_xdf_with_spreadsheet docExample [recExample]).map
      (fun p => firstTableZMax p.1) = Except.ok (some "300.00") := by rfl

/-- C4 counterexample: a record whose new-bound field holds the string
`"300"` and whose target address resolves to a table with a z-axis max
element does NOT have its value tolerated: formatting the string with
`:.2f` raises `ValueError` and the run aborts, refuting the claim that the
editor handles the value without aborting. -/
theorem C4_counterexample :
    update_xdf_with_spreadsheet docExample [recStringMax] =
      Except.error "ValueError: Unknown format code f for object of type str" := by rfl

/-- C1 counterexample: two records whose target-key field is empty
(`""`) and missing (`None`) are processed with the tree unchanged but
with NO warning at all (the empty log refutes the claim's "exactly one
warning ... including records whose target-key field is empty or
missing"). -/
theorem C1_counterexample :
    update_xdf_with_spreadsheet docExample [recEmptyAddr, recMissingAddr] =
      Except.ok (docExample, []) := rfl

/-- C2 counterexample: a stored address attribute ` 0x4076a` (leading
space) and a record target key `0x4076a` differ only in surrounding
whitespace, yet the record does NOT resolve: the index side never trims,
so the run leaves the tree unchanged and warns — refuting the claim that
index construction and record lookup normalize identically by trimming
and uppercasing. -/
theorem C2_counterexample :
    update_xdf_with_spreadsheet docSpacedAddr [recExample] =
      Except.ok (docSpacedAddr,
        [LogEntry.warning "0X4076A" (CellValue.str "Boost Target Table")]) := by rfl

/-- C6 counterexample: with the rename map sending `Boost Control` to
`RACE: Maximum Boost Control`, a `CATEGORY` node that sits inside a table
rather than under `XDFHEADER` keeps the name `Boost Control` after the
run even though that name is a map key — refuting the claim that EVERY
category node in the document whose name equals a key is renamed. -/
theorem C6_counterexample :
    firstTableCategoryName (update_xdf_for_high_performance rmBoost docTableCategory) =
        some "Boost Control" ∧
    lookupKey rmBoost "Boost Control" = some "RACE: Maximum Boost Control" ∧
    ¬ ("Boost Control" = "RACE: Maximum Boost Control") :=
  ⟨rfl, rfl, by decide⟩

/-- C1 (amended): an EditRecord with a truthy string target key that is
not in the index leaves the tables unchanged and emits exactly one warning
naming the normalized key and the record's parameter name; a record whose
target-key field is empty or missing is skipped silently — tree unchanged
and NO diagnostic at all. -/
theorem C1_unresolved_warns (index : List (String × Nat)) (tables : List Elem)
    (rec rec2 : EditRecord) (s : String)
    (haddr : rec.xdf_address = CellValue.str s) (hs : ¬ s = "")
    (hmiss : lookupLast index (upperStr (trimStr s)) = Option.none)
    (h2 : rec2.xdf_address = CellValue.str "" ∨ rec2.xdf_address = CellValue.none) :
    processRecord index tables rec =
      Except.ok (tables, [LogEntry.warning (upperStr (trimStr s)) rec.param_name]) ∧
    processRecord index tables rec2 = Except.ok (tables, []) := by
  constructor
  · obtain ⟨pn, ad, nm, nt⟩ := rec
    simp only at haddr
    subst haddr
    simp [processRecord, hs, hmiss]
  · obtain ⟨pn2, ad2, nm2, nt2⟩ := rec2
    simp only at h2
    rcases h2 with h2 | h2
    · subst h2
      simp [processRecord]
    · subst h2
      simp [processRecord]

/-- Witness for C1: against the example document's index, the record
targeting the unknown address `0xBEEF` warns once and changes nothing,
and the record with the empty target key is skipped with no warning. -/
theorem C1_unresolved_warns_witness :
    processRecord (buildIndex [tExample]) [tExample] recUnknown =
      Except.ok ([tExample], [LogEntry.warning "0XBEEF" (CellValue.str "Boost Target Table")]) ∧
    processRecord (buildIndex [tExample]) [tExample] recEmptyAddr =
      Except.ok ([tExample], []) :=
  C1_unresolved_warns (buildIndex [tExample]) [tExample] recUnknown recEmptyAddr
    "0xBEEF" rfl (by decide) (by rfl) (Or.inl rfl)

/-- C2 (amended): the index normalizes a stored address by uppercasing
ONLY (no trim), while the record side trims then uppercases its key; a
record key therefore resolves exactly when its trimmed, uppercased form
equals the uppercased stored attribute — so keys differing from the stored
address in letter case or in whitespace around the key resolve, but
whitespace inside the stored attribute is kept and defeats the match. -/
theorem C2_index_uppercases_lookup_trims (t z em : Elem) (a k : String)
    (hz : t.children.find? isZAxis = some z)
    (hem : z.find "EMBEDDEDDATA" = some em)
    (ha : em.getAttr "mmedaddress" = some a) (hne : ¬ a = "")
    (hk : upperStr (trimStr k) = upperStr a) :
    buildIndex [t] = [(upperStr a, 0)] ∧
    lookupLast (buildIndex [t]) (upperStr (trimStr k)) = some 0 := by
  have hzaddr : zAddr t = some (upperStr a) := by
    simp [zAddr, hz, hem, ha, hne]
  have hidx : buildIndex [t] = [(upperStr a, 0)] := by
    have he : List.enum [t] = [(0, t)] := rfl
    simp [buildIndex, he, hzaddr]
  refine ⟨hidx, ?_⟩
  rw [hidx, hk]
  simp [lookupLast, List.filter]

/-- Witness for C2: the stored attribute `0x4076A` is indexed as
`0X4076A`, and the key ` 0x4076a ` (spaces and lowercase) resolves to it. -/
theorem C2_index_uppercases_lookup_trims_witness :
    buildIndex [tExample] = [("0X4076A", 0)] ∧
    lookupLast (buildIndex [tExample]) (upperStr (trimStr " 0x4076a ")) = some 0 :=
  C2_index_uppercases_lookup_trims tExample zExample
    (.node "EMBEDDEDDATA" [("mmedaddress", "0x4076A")] Option.none [])
    "0x4076A" " 0x4076a " rfl rfl rfl (by decide) (by rfl)

/-- C4 (amended): a record whose new-bound field holds a string and whose
target address resolves to a table with a z-axis max element is NOT
tolerated: formatting the string with `:.2f` raises `ValueError` and the
run aborts (values pass through loading unvalidated, but the write
requires a numeric value). -/
theorem C4_string_bound_aborts (index : List (String × Nat)) (tables : List Elem)
    (rec : EditRecord) (s v : String) (i : Nat) (t z me : Elem)
    (haddr : rec.xdf_address = CellValue.str s) (hs : ¬ s = "")
    (hmax : rec.new_max = CellValue.str v)
    (hlook : lookupLast index (upperStr (trimStr s)) = some i)
    (ht : tables[i]? = some t)
    (hz : t.children.find? isZAxis = some z)
    (hme : z.find "max" = some me) :
    processRecord index tables rec =
      Except.error "ValueError: Unknown format code f for object of type str" := by
  have hz2 : ((applyTitle rec (upperStr (trimStr s)) t).1).children.find? isZAxis = some z := by
    rw [applyTitle_find_zaxis]
    exact hz
  exact processRecord_resolved_err index tables rec s i t _ haddr hs hlook ht
    (applyMax_str rec (upperStr (trimStr s)) _ z me v hmax hz2 hme)

/-- Witness for C4: the record carrying the string `"300"` as its new
bound aborts the run against the example table. -/
theorem C4_string_bound_aborts_witness :
    processRecord (buildIndex [tExample]) [tExample] recStringMax =
      Except.error "ValueError: Unknown format code f for object of type str" :=
  C4_string_bound_aborts (buildIndex [tExample]) [tExample] recStringMax
    "0x4076a" "300" 0 tExample zExample (.node "max" [] (some "255.0") [])
    rfl (by decide) rfl (by rfl) rfl rfl rfl

theorem tagIs_titleRenameFun (tg : String) (a : Elem) :
    tagIs tg (if tagIs "XDFTABLE" a then titleStep a else a) = tagIs tg a := by
  by_cases h : tagIs "XDFTABLE" a = true
  · rw [if_pos h]
    simp [tagIs, tag_titleStep]
  · rw [if_neg h]

/-- C5: when two tables share the same normalized z-axis address, the
index maps that address to position 1 (the later table, last write wins),
and a successful run of a record targeting that address leaves position 0
(the earlier table) untouched: the result is the earlier table followed by
exactly one possibly-rewritten table. -/
theorem C5_last_write_wins (t1 t2 : Elem) (k s : String) (rec : EditRecord)
    (res : List Elem) (logs : List LogEntry)
    (h1 : zAddr t1 = some k) (h2 : zAddr t2 = some k)
    (haddr : rec.xdf_address = CellValue.str s) (hs : ¬ s = "")
    (hk : upperStr (trimStr s) = k)
    (hrun : processRecord (buildIndex [t1, t2]) [t1, t2] rec = Except.ok (res, logs)) :
    lookupLast (buildIndex [t1, t2]) k = some 1 ∧
    res.head? = some t1 ∧ res.length = 2 := by
  have hidx : buildIndex [t1, t2] = [(k, 0), (k, 1)] := by
    have he : List.enum [t1, t2] = [(0, t1), (1, t2)] := rfl
    simp [buildIndex, he, h1, h2]
  have hlk : lookupLast (buildIndex [t1, t2]) k = some 1 := by
    rw [hidx]
    simp [lookupLast, List.filter, List.getLast?_cons_cons, List.getLast?_singleton]
  refine ⟨hlk, ?_⟩
  have hlk2 : lookupLast (buildIndex [t1, t2]) (upperStr (trimStr s)) = some 1 := by
    rw [hk]
    exact hlk
  have hti : ([t1, t2])[1]? = some t2 := rfl
  cases happ : applyMax rec (upperStr (trimStr s)) (applyTitle rec (upperStr (trimStr s)) t2).1 with
  | error e =>
      rw [processRecord_resolved_err _ _ rec s 1 t2 e haddr hs hlk2 hti happ] at hrun
      exact absurd hrun (by simp)
  | ok p2 =>
      obtain ⟨t2m, logs2⟩ := p2
      rw [processRecord_resolved_ok _ _ rec s 1 t2 t2m logs2 haddr hs hlk2 hti happ] at hrun
      simp only [Except.ok.injEq, Prod.mk.injEq] at hrun
      obtain ⟨hres, hlogs⟩ := hrun
      rw [← hres]
      exact ⟨rfl, rfl⟩

/-- Witness for C5: with two tables both stored at `0X10` and a record
targeting `0x10`, the index points at position 1, the earlier table
survives unchanged at the head, and only the later table is rewritten. -/
theorem C5_last_write_wins_witness :
    lookupLast (buildIndex [t1Dup, t2Dup]) "0X10" = some 1 ∧
    ([t1Dup, tableWith "0x10" (some "5.00") (some "Second")]).head? = some t1Dup ∧
    ([t1Dup, tableWith "0x10" (some "5.00") (some "Second")]).length = 2 :=
  C5_last_write_wins t1Dup t2Dup "0X10" "0x10" recDup
    [t1Dup, tableWith "0x10" (some "5.00") (some "Second")]
    [LogEntry.updatedMax Option.none (CellValue.num 5) "0X10"]
    rfl rfl rfl (by decide) rfl (by rfl)

/-- C6 (amended): the run renames exactly the `CATEGORY` children of the
document's first `XDFHEADER` child: the header is rewritten through
`headerStep`, a category whose name matches a map key carries the mapped
value afterwards, and a category whose name matches no key is returned
byte-identical. -/
theorem C6_header_categories_renamed (rm : List (String × String)) (root hd c c2 : Elem)
    (v : String)
    (hfind : root.find "XDFHEADER" = some hd)
    (hmatch : lookupKey rm ((c.getAttr "name").getD "") = some v)
    (hnomatch : lookupKey rm ((c2.getAttr "name").getD "") = Option.none) :
    (update_xdf_for_high_performance rm root).find "XDFHEADER" = some (headerStep rm hd) ∧
    (catStep rm c).getAttr "name" = some v ∧
    catStep rm c2 = c2 := by
  refine ⟨?_, ?_, ?_⟩
  · have htag : tagIs "XDFHEADER" hd = true := List.find?_some hfind
    unfold update_xdf_for_high_performance renameIgnitionTitles renameCategories Elem.find
    rw [children_withChildren, children_withChildren]
    rw [find?_map_pres (tagIs "XDFHEADER") _ (fun a => tagIs_titleRenameFun "XDFHEADER" a)]
    rw [find?_mapFirst_same (tagIs "XDFHEADER") (headerStep rm)
          (fun a => by simp [tagIs, tag_headerStep]) root.children]
    have hf : root.children.find? (tagIs "XDFHEADER") = some hd := hfind
    rw [hf]
    simp only [Option.map_some']
    have hnt : tagIs "XDFTABLE" (headerStep rm hd) = false := by
      have hh : hd.tag = "XDFHEADER" := (tagIs_eq_true_iff _ _).mp htag
      simp [tagIs, tag_headerStep, hh]
    simp [hnt]
  · unfold catStep
    rw [hmatch]
    exact getAttr_setAttr c "name" v
  · unfold catStep
    rw [hnomatch]

/-- Witness for C6: under `rmBoost` the header of the fixture document is
rewritten through `headerStep`, the matching category ends up named
`RACE: Maximum Boost Control`, and the non-matching one is unchanged. -/
theorem C6_header_categories_renamed_witness :
    (update_xdf_for_high_performance rmBoost docTableCategory).find "XDFHEADER" =
      some (headerStep rmBoost hdFix) ∧
    (catStep rmBoost catBoost).getAttr "name" = some "RACE: Maximum Boost Control" ∧
    catStep rmBoost catFuel = catFuel :=
  C6_header_categories_renamed rmBoost docTableCategory hdFix catBoost catFuel
    "RACE: Maximum Boost Control" rfl rfl rfl

/-- C7: the conditional-rename step sends a table's first title element
through `igniteTitle`: text containing `Ignition` is prefixed with
`RACE HIGH PERF ` and any other text is left as it was; in particular,
whatever the rename map holds, the full run turns the title
`Ignition Timing Base` into `RACE HIGH PERF Ignition Timing Base`. -/
theorem C7_ignition_prefix (rm : List (String × String)) (t te : Elem) (s : String)
    (ht : t.find "title" = some te) (htext : te.text = some s) :
    (titleStep t).find "title" =
      some (if !(s == "") && containsSubstr s "Ignition" then
        te.setText ("RACE HIGH PERF " ++ s) else te) ∧
    firstTableTitleText (update_xdf_for_high_performance rm docIgnition) =
      some "RACE HIGH PERF Ignition Timing Base" := by
  constructor
  · unfold titleStep Elem.find
    rw [children_withChildren]
    rw [find?_mapFirst_same (tagIs "title") igniteTitle
          (fun a => by simp [tagIs, tag_igniteTitle]) t.children]
    have ht2 : t.children.find? (tagIs "title") = some te := ht
    rw [ht2]
    simp only [Option.map_some']
    unfold igniteTitle
    rw [htext]
  · rfl

/-- Witness for C7: the fixture title `Ignition Timing Base` is prefixed
by the step, and the full run (under `rmBoost`) produces exactly
`RACE HIGH PERF Ignition Timing Base`. -/
theorem C7_ignition_prefix_witness :
    (titleStep tIgnition).find "title" =
      some (teIgnition.setText "RACE HIGH PERF Ignition Timing Base") ∧
    firstTableTitleText (update_xdf_for_high_performance rmBoost docIgnition) =
      some "RACE HIGH PERF Ignition Timing Base" :=
  C7_ignition_prefix rmBoost tIgnition teIgnition "Ignition Timing Base" rfl rfl

theorem catStep_idem (rm : List (String × String))
    (hvals : ∀ p ∈ rm, lookupKey rm p.2 = Option.none) (c : Elem) :
    catStep rm (catStep rm c) = catStep rm c := by
  cases hl : lookupKey rm ((c.getAttr "name").getD "") with
  | none => simp [catStep, hl]
  | some v =>
      have hmem := lookupKey_eq_some_mem rm ((c.getAttr "name").getD "") v hl
      have hv : lookupKey rm v = Option.none := hvals _ hmem
      have h1 : catStep rm c = c.setAttr "name" v := by
        simp [catStep, hl]
      rw [h1]
      have h2 : ((c.setAttr "name" v).getAttr "name").getD "" = v := by
        rw [getAttr_setAttr]
        rfl
      simp [catStep, h2, hv]

theorem headerStep_idem (rm : List (String × String))
    (hvals : ∀ p ∈ rm, lookupKey rm p.2 = Option.none) (hd : Elem) :
    headerStep rm (headerStep rm hd) = headerStep rm hd := by
  unfold headerStep
  rw [children_withChildren, withChildren_withChildren, List.map_map]
  congr 1
  apply List.map_congr_left
  intro a _
  by_cases ha : tagIs "CATEGORY" a = true
  · have h1 : tagIs "CATEGORY" (catStep rm a) = true := by
      rw [tagIs, tag_catStep]
      exact ha
    simp only [Function.comp_apply]
    rw [if_pos ha, if_pos h1]
    exact catStep_idem rm hvals a
  · simp only [Function.comp_apply]
    rw [if_neg ha, if_neg ha]

theorem renameCategories_idem (rm : List (String × String))
    (hvals : ∀ p ∈ rm, lookupKey rm p.2 = Option.none) (root : Elem) :
    renameCategories rm (renameCategories rm root) = renameCategories rm root := by
  unfold renameCategories
  rw [children_withChildren, withChildren_withChildren]
  congr 1
  apply mapFirst_idem
  · intro a
    rw [tagIs, tagIs, tag_headerStep]
  · intro a _
    exact headerStep_idem rm hvals a

/-- C9 counterexample: there is NO document and rename map with
non-key values on which running the category-rename step twice differs
from running it once — the claimed non-idempotence witness cannot exist,
because under that side condition the step is idempotent. -/
theorem C9_counterexample :
    ¬ ∃ (root : Elem) (rm : List (String × String)),
        (∀ p ∈ rm, lookupKey rm p.2 = Option.none) ∧
        ¬ (renameCategories rm (renameCategories rm root) = renameCategories rm root) := by
  rintro ⟨root, rm, hvals, hne⟩
  exact hne (renameCategories_idem rm hvals root)

/-- C9 (amended): for every document and rename map whose mapped values
are not themselves map keys, running the category-rename step twice gives
the same result as running it once — the step IS idempotent under that
side condition (non-idempotence would require a mapped value that is
itself a key). -/
theorem C9_rename_idempotent (rm : List (String × String)) (root : Elem)
    (hvals : ∀ p ∈ rm, lookupKey rm p.2 = Option.none) :
    renameCategories rm (renameCategories rm root) = renameCategories rm root :=
  renameCategories_idem rm hvals root

/-- Witness for C9: `rmBoost` maps `Boost Control` to a non-key value,
and on the fixture document the second application changes nothing. -/
theorem C9_rename_idempotent_witness :
    renameCategories rmBoost (renameCategories rmBoost docTableCategory) =
      renameCategories rmBoost docTableCategory :=
  C9_rename_idempotent rmBoost docTableCategory (by decide)

/-- C8: a resolved record with a numeric new bound whose target max text
does not parse as a float is non-fatal: the run continues (`ok`), the max
text at the targeted position is overwritten with the bound formatted to
two decimals, and the log records the unknown old value as `none`. -/
theorem C8_parse_failure_nonfatal (index : List (String × Nat)) (tables : List Elem)
    (rec : EditRecord) (s : String) (i : Nat) (t z me : Elem) (q : ℚ)
    (haddr : rec.xdf_address = CellValue.str s) (hs : ¬ s = "")
    (hmax : rec.new_max = CellValue.num q)
    (hlook : lookupLast index (upperStr (trimStr s)) = some i)
    (ht : tables[i]? = some t)
    (hz : t.children.find? isZAxis = some z)
    (hme : z.find "max" = some me)
    (hparse : tryParse me.text = Option.none) :
    (processRecord index tables rec).map (fun p => p.1[i]?.map zMaxText) =
      Except.ok (some (some (formatTwoDec q))) ∧
    (processRecord index tables rec).map
        (fun p => p.2.contains
          (LogEntry.updatedMax Option.none (CellValue.num q) (upperStr (trimStr s)))) =
      Except.ok true := by
  have hlen : i < tables.length := by
    rw [List.getElem?_eq_some] at ht
    exact ht.1
  have hz1 : ((applyTitle rec (upperStr (trimStr s)) t).1).children.find? isZAxis = some z := by
    rw [applyTitle_find_zaxis]
    exact hz
  have happ := applyMax_num rec (upperStr (trimStr s))
      (applyTitle rec (upperStr (trimStr s)) t).1 z me q hmax hz1 hme
  rw [hparse] at happ
  have hpr := processRecord_resolved_ok index tables rec s i t _ _ haddr hs hlook ht happ
  rw [hpr]
  constructor
  · simp only [Except.map]
    rw [List.getElem?_set_eq_of_lt _ hlen]
    rw [Option.map_some']
    rw [zMaxText_after_write _ z me (formatTwoDec q) hz1 hme]
  · simp only [Except.map]
    simp

/-- Witness for C8: the table whose max text is the unparsable `xx` is
rewritten to `3.00` by the record with bound 3, the run stays `ok`, and
the old value is logged as unknown. -/
theorem C8_parse_failure_nonfatal_witness :
    (processRecord (buildIndex [tUnparse]) [tUnparse] recUnparse).map
        (fun p => p.1[0]?.map zMaxText) = Except.ok (some (some "3.00")) ∧
    (processRecord (buildIndex [tUnparse]) [tUnparse] recUnparse).map
        (fun p => p.2.contains
          (LogEntry.updatedMax Option.none (CellValue.num 3) "0X20")) =
      Except.ok true :=
  C8_parse_failure_nonfatal (buildIndex [tUnparse]) [tUnparse] recUnparse
    "0x20" 0 tUnparse (zAxisWith "0x20" (some "xx")) (.node "max" [] (some "xx") []) 3
    rfl (by decide) rfl (by rfl) rfl rfl rfl rfl

/-- C10: presence of the two optional fields is tested differently: for a
resolved record, a new bound equal to the number 0 (not `None`) IS
applied — the z-axis max text becomes `0.00` — while a new title equal to
the empty string is falsy, so the title mutation is skipped and the title
element is returned untouched. -/
theorem C10_zero_bound_written_empty_title_skipped (index : List (String × Nat))
    (tables : List Elem) (rec : EditRecord) (s : String) (i : Nat) (t z me te : Elem)
    (haddr : rec.xdf_address = CellValue.str s) (hs : ¬ s = "")
    (hmax : rec.new_max = CellValue.num 0)
    (htitle : rec.new_title = CellValue.str "")
    (hlook : lookupLast index (upperStr (trimStr s)) = some i)
    (ht : tables[i]? = some t)
    (hz : t.children.find? isZAxis = some z)
    (hme : z.find "max" = some me)
    (hte : t.find "title" = some te) :
    (processRecord index tables rec).map (fun p => p.1[i]?.map zMaxText) =
      Except.ok (some (some "0.00")) ∧
    (processRecord index tables rec).map (fun p => p.1[i]?.map (fun u => u.find "title")) =
      Except.ok (some (some te)) ∧
    cellTruthy (CellValue.str "") = false ∧
    ¬ (CellValue.num 0 = CellValue.none) := by
  have hlen : i < tables.length := by
    rw [List.getElem?_eq_some] at ht
    exact ht.1
  have htt : applyTitle rec (upperStr (trimStr s)) t = (t, []) := by
    unfold applyTitle
    rw [htitle]
    simp [cellTruthy]
  have happ := applyMax_num rec (upperStr (trimStr s)) t z me 0 hmax hz hme
  have happ2 : applyMax rec (upperStr (trimStr s))
      (applyTitle rec (upperStr (trimStr s)) t).1 =
      Except.ok (t.withChildren (mapFirst isZAxis (writeMax (formatTwoDec 0)) t.children),
        [LogEntry.updatedMax (tryParse me.text) (CellValue.num 0) (upperStr (trimStr s))]) := by
    rw [htt]
    exact happ
  have hpr := processRecord_resolved_ok index tables rec s i t _ _ haddr hs hlook ht happ2
  rw [hpr]
  have hfmt : formatTwoDec 0 = "0.00" := by decide
  refine ⟨?_, ?_, by decide, by decide⟩
  · simp only [Except.map]
    rw [List.getElem?_set_eq_of_lt _ hlen]
    rw [Option.map_some']
    rw [zMaxText_after_write _ z me (formatTwoDec 0) hz hme]
    rw [hfmt]
  · simp only [Except.map]
    rw [List.getElem?_set_eq_of_lt _ hlen]
    rw [Option.map_some']
    rw [find_title_after_zwrite t (formatTwoDec 0)]
    rw [hte]

/-- Witness for C10: the record with bound 0 and title `""` rewrites the
fixture table's max text to `0.00` while leaving its title element
untouched. -/
theorem C10_zero_bound_written_empty_title_skipped_witness :
    (processRecord (buildIndex [tZeroMax]) [tZeroMax] recZeroEmpty).map
        (fun p => p.1[0]?.map zMaxText) = Except.ok (some (some "0.00")) ∧
    (processRecord (buildIndex [tZeroMax]) [tZeroMax] recZeroEmpty).map
        (fun p => p.1[0]?.map (fun u => u.find "title")) =
      Except.ok (some (some (.node "title" [] (some "Old Title") []))) ∧
    cellTruthy (CellValue.str "") = false ∧
    ¬ (CellValue.num 0 = CellValue.none) :=
  C10_zero_bound_written_empty_title_skipped (buildIndex [tZeroMax]) [tZeroMax]
    recZeroEmpty "0x30" 0 tZeroMax (zAxisWith "0x30" (some "255"))
    (.node "max" [] (some "255") []) (.node "title" [] (some "Old Title") [])
    rfl (by decide) rfl rfl (by rfl) rfl rfl rfl rfl

end XdfFun
